import Mathlib

/-!
Shallow embedding of the dtracker equipment tracker's normalization,
store and statistics core (src/services/db.ts and the Dashboard stats
computation), together with theorems settling the frozen claims.

Records that cross the import boundary are loosely typed JSON objects, so
they are modelled as association lists of string keys to JavaScript
values; the TypeScript `Equipment` interface is erased at runtime and the
code operates purely on such objects.  JavaScript numbers are modelled as
integers (no claim involves fractional values), and the `Date` builtin is
modelled over calendar instants with millisecond-of-day precision,
restricted to the four-digit years its ISO output uses, which covers
every value this program produces.
-/

set_option maxHeartbeats 1000000

namespace DTracker

/-- Model of a JavaScript runtime value as it occurs in this program's
data: the JSON-representable scalars plus `undefined` (absent fields). -/
inductive JSVal where
  | str (s : String)
  | num (n : Int)
  | boolean (b : Bool)
  | null
  | undef
  deriving DecidableEq, Repr

/-- JavaScript truthiness for the modelled values: empty strings, zero,
`false`, `null` and `undefined` are falsy. -/
def truthy : JSVal → Bool
  | .str s => s != ""
  | .num n => n != 0
  | .boolean b => b
  | .null => false
  | .undef => false

/-- Model of JavaScript `String(v)` on the modelled values. -/
def jsToString : JSVal → String
  | .str s => s
  | .num n => toString n
  | .boolean b => if b then "true" else "false"
  | .null => "null"
  | .undef => "undefined"

/-- Model of the JavaScript `a || b` operator: `a` when truthy, else `b`. -/
def jsOr (a b : JSVal) : JSVal := if truthy a then a else b

/-- A loosely typed record (JSON object): an association list from keys to
values.  Lookup takes the first binding for a key, so overriding a key is
modelled by prepending a new binding. -/
abbrev Rec := List (String × JSVal)

/-- Reading `item.k`: the first binding for `k`, or `undefined` if absent. -/
def getField (r : Rec) (k : String) : JSVal := (r.lookup k).getD JSVal.undef

/-- A calendar instant: year, month (1-12), day of month, and millisecond
of day, in UTC.  This is the model of a valid JavaScript `Date` value. -/
structure Instant where
  year : Nat
  month : Nat
  day : Nat
  ms : Nat
  deriving DecidableEq, Repr

/-- Gregorian leap-year test. -/
def isLeap (y : Nat) : Bool := y % 4 == 0 && (y % 100 != 0 || y % 400 == 0)

/-- Number of days in a month of a given year. -/
def daysInMonth (y m : Nat) : Nat :=
  if m = 2 then (if isLeap y then 29 else 28)
  else if m = 4 ∨ m = 6 ∨ m = 9 ∨ m = 11 then 30
  else 31

/-- A calendar tuple denotes a real instant representable by this model:
fields in range, with the year restricted to the four-digit years the
program's ISO strings carry. -/
def validInstant (i : Instant) : Prop :=
  1 ≤ i.month ∧ i.month ≤ 12 ∧ 1 ≤ i.day ∧ i.day ≤ daysInMonth i.year i.month ∧
    i.ms < 86400000 ∧ i.year ≤ 9999

instance (i : Instant) : Decidable (validInstant i) := by
  unfold validInstant; infer_instance

/-- Mixed-radix encoding of an instant whose order agrees with
chronological (millisecond-timestamp) order on valid instants; it models
the numeric comparison of `Date` values. -/
def Instant.key (i : Instant) : Nat :=
  ((i.year * 13 + i.month) * 32 + i.day) * 86400000 + i.ms

/-- Numeric value of a decimal digit character. -/
def digVal (c : Char) : Nat := c.toNat - 48

/-- Two-digit zero-padded decimal rendering (of `n % 100`). -/
def pad2 (n : Nat) : List Char :=
  [Nat.digitChar (n / 10 % 10), Nat.digitChar (n % 10)]

/-- Three-digit zero-padded decimal rendering (of `n % 1000`). -/
def pad3 (n : Nat) : List Char :=
  [Nat.digitChar (n / 100 % 10), Nat.digitChar (n / 10 % 10), Nat.digitChar (n % 10)]

/-- Four-digit zero-padded decimal rendering (of `n % 10000`). -/
def pad4 (n : Nat) : List Char :=
  [Nat.digitChar (n / 1000 % 10), Nat.digitChar (n / 100 % 10),
   Nat.digitChar (n / 10 % 10), Nat.digitChar (n % 10)]

/-- Character list of `Date.prototype.toISOString` applied to an instant:
the format `YYYY-MM-DDTHH:MM:SS.mmmZ`. -/
def toISOChars (i : Instant) : List Char :=
  pad4 i.year ++ ('-' :: (pad2 i.month ++ ('-' :: (pad2 i.day ++
    ('T' :: (pad2 (i.ms / 3600000) ++ (':' :: (pad2 (i.ms % 3600000 / 60000) ++
      (':' :: (pad2 (i.ms % 60000 / 1000) ++
        ('.' :: (pad3 (i.ms % 1000) ++ ['Z']))))))))))))

/-- Model of `Date.prototype.toISOString` on a valid instant. -/
def toISOString (i : Instant) : String := String.mk (toISOChars i)

def parse2 (a b : Char) : Nat := digVal a * 10 + digVal b

def parse3 (a b c : Char) : Nat := digVal a * 100 + digVal b * 10 + digVal c

def parse4 (a b c d : Char) : Nat :=
  digVal a * 1000 + digVal b * 100 + digVal c * 10 + digVal d

/-- Assemble a parsed calendar tuple, yielding a `Date` value only when
the fields denote a valid instant (out-of-range components give an
invalid date, as ISO parsing does). -/
def mkInstant? (y mo d ms : Nat) : Option Instant :=
  let i : Instant := ⟨y, mo, d, ms⟩
  if validInstant i then some i else none

/-- Model of ECMAScript `Date` string parsing, over the Date Time String
Format shapes this program produces and consumes: a date-only form
`YYYY-MM-DD` (interpreted as UTC midnight) and the full UTC form
`YYYY-MM-DDTHH:MM:SS.mmmZ` that `toISOString` emits.  Any other string is
an invalid date. -/
def parseJSDateChars : List Char → Option Instant
  | [y1, y2, y3, y4, s1, m1, m2, s2, d1, d2] =>
    if (y1.isDigit && y2.isDigit && y3.isDigit && y4.isDigit &&
        m1.isDigit && m2.isDigit && d1.isDigit && d2.isDigit &&
        s1 == '-' && s2 == '-') = true then
      mkInstant? (parse4 y1 y2 y3 y4) (parse2 m1 m2) (parse2 d1 d2) 0
    else none
  | [y1, y2, y3, y4, s1, m1, m2, s2, d1, d2, tc, h1, h2, c1, i1, i2, c2,
     x1, x2, pc, f1, f2, f3, zc] =>
    if (y1.isDigit && y2.isDigit && y3.isDigit && y4.isDigit &&
        m1.isDigit && m2.isDigit && d1.isDigit && d2.isDigit &&
        h1.isDigit && h2.isDigit && i1.isDigit && i2.isDigit &&
        x1.isDigit && x2.isDigit && f1.isDigit && f2.isDigit && f3.isDigit &&
        s1 == '-' && s2 == '-' && tc == 'T' && c1 == ':' && c2 == ':' &&
        pc == '.' && zc == 'Z') = true then
      let hh := parse2 h1 h2
      let mi := parse2 i1 i2
      let ss := parse2 x1 x2
      if hh < 24 ∧ mi < 60 ∧ ss < 60 then
        mkInstant? (parse4 y1 y2 y3 y4) (parse2 m1 m2) (parse2 d1 d2)
          (hh * 3600000 + mi * 60000 + ss * 1000 + parse3 f1 f2 f3)
      else none
    else none
  | _ => none

def parseJSDateString (s : String) : Option Instant := parseJSDateChars s.data

/-- Civil-from-days conversion (Hinnant's algorithm, as used for the
ECMAScript epoch-milliseconds to calendar mapping): day number relative
to 1970-01-01 to (year, month, day). -/
def civilFromDays (z0 : Int) : Int × Int × Int :=
  let z := z0 + 719468
  let era : Int := z.fdiv 146097
  let doe : Int := z - era * 146097
  let yoe : Int := (doe - doe.fdiv 1460 + doe.fdiv 36524 - doe.fdiv 146096).fdiv 365
  let y : Int := yoe + era * 400
  let doy : Int := doe - (365 * yoe + yoe.fdiv 4 - yoe.fdiv 100)
  let mp : Int := (5 * doy + 2).fdiv 153
  let d : Int := doy - (153 * mp + 2).fdiv 5 + 1
  let m : Int := if mp < 10 then mp + 3 else mp - 9
  (if m ≤ 2 then y + 1 else y, m, d)

/-- Model of `new Date(n)` for a numeric argument: epoch milliseconds to
a calendar instant, invalid outside the model's representable range. -/
def instantOfMillis (n : Int) : Option Instant :=
  if n.natAbs > 8640000000000000 then none
  else
    let days := n.fdiv 86400000
    let msOfDay := (n.fmod 86400000).toNat
    let c := civilFromDays days
    if 0 ≤ c.1 then mkInstant? c.1.toNat c.2.1.toNat c.2.2.toNat msOfDay else none

/-- Model of `new Date(val)` on the modelled values: strings are parsed,
numbers are epoch milliseconds, `true`/`false`/`null` coerce to numbers,
`undefined` gives an invalid date. -/
def jsNewDate : JSVal → Option Instant
  | .str s => parseJSDateString s
  | .num n => instantOfMillis n
  | .boolean b => instantOfMillis (if b then 1 else 0)
  | .null => instantOfMillis 0
  | .undef => none

/-- The `safeDate` helper of src/services/db.ts: falsy input gives the
empty string; otherwise the value is made into a date, a valid date is
standardised to its ISO string, and an invalid one gives the empty
string.  (In the model `toISOString` is total on valid instants, so the
catch branch around it is unreachable, exactly as in the source.) -/
def safeDate (val : JSVal) : String :=
  if truthy val then
    match jsNewDate val with
    | some d => toISOString d
    | none => ""
  else ""

/-- Model of `String.prototype.trim`: strip leading and trailing
whitespace (the ASCII whitespace characters, which cover this program's
data; implemented structurally so that it evaluates). -/
def isJsWhitespace (c : Char) : Bool :=
  c == ' ' || c == '\t' || c == '\n' || c == '\r' || c == '\x0b' || c == '\x0c'

def jsTrim (s : String) : String :=
  String.mk (((s.data.dropWhile isJsWhitespace).reverse.dropWhile isJsWhitespace).reverse)

/-- Model of `String.prototype.toLowerCase` (ASCII case mapping). -/
def jsToLower (s : String) : String := String.mk (s.data.map Char.toLower)

/-- The idiom `s.charAt(0).toUpperCase() + s.slice(1).toLowerCase()`,
shared by `normalizeEnum` and the Dashboard's type bucketing (ASCII case
mapping). -/
def titleCase (s : String) : String :=
  match s.data with
  | [] => ""
  | c :: rest => String.mk (Char.toUpper c :: rest.map Char.toLower)

/-- The `normalizeEnum` helper of src/services/db.ts: stringify with a
falsy-to-empty guard, trim, return the fallback on an empty result, and
otherwise title-case. -/
def normalizeEnum (val : JSVal) (fallback : String) : String :=
  let s := jsTrim (jsToString (jsOr val (JSVal.str "")))
  if s = "" then fallback else titleCase s

/-- The persisted localStorage slot for the equipment collection: either
absent, present but failing to parse as JSON, or a parsed list of
records. -/
inductive Stored where
  | absent
  | corrupt
  | items (l : List Rec)
  deriving Repr

/-- Exceptions the store operations can propagate: a JSON `SyntaxError`
from parsing the persisted text, or the thrown `Error('Item not
found')`. -/
inductive JSErr where
  | parseError
  | notFound
  deriving DecidableEq, Repr

/-- The `stored ? JSON.parse(stored) : []` idiom used (without a
try/catch) by the mutating store operations. -/
def readOrThrow : Stored → Except JSErr (List Rec)
  | .absent => .ok []
  | .corrupt => .error .parseError
  | .items l => .ok l

/-- `db.getAll`: absent storage gives the empty list, and a parse failure
is caught and also gives the empty list. -/
def db.getAll : Stored → List Rec
  | .absent => []
  | .corrupt => []
  | .items l => l

/-- JavaScript `Array.prototype.findIndex`: index of the first match, or
`-1` when there is none. -/
def jsFindIndex (p : α → Bool) : List α → Int
  | [] => -1
  | a :: rest =>
    if p a then 0
    else
      let k := jsFindIndex p rest
      if k = -1 then -1 else k + 1

/-- The strict string comparison `String(item.id) === String(id)` used by
`db.update` and `db.delete` (the argument is already a string). -/
def idMatches (id : String) (item : Rec) : Bool := jsToString (getField item "id") == id

/-- `db.update`: parse the stored collection, locate the record by
stringified id, throw `Item not found` when absent, otherwise merge the
partial fields over the record (later keys win) and write back.  The
returned `Stored` is the post-call persisted state; it is unchanged on
either error path. -/
def db.update (s : Stored) (id : String) (updates : Rec) : Except JSErr Rec × Stored :=
  match readOrThrow s with
  | .error e => (.error e, s)
  | .ok items =>
    let index := jsFindIndex (idMatches id) items
    if index = -1 then (.error .notFound, s)
    else
      let old := items.getD index.toNat []
      let updatedItem : Rec := updates ++ old
      (.ok updatedItem, .items (items.set index.toNat updatedItem))

/-- `db.add`: parse the stored collection, build the new record as the
given fields overridden with a generated id and the current instant as
`createdAt`, append it and write back.  `genId` stands for the
`generateId()` result and `nowIso` for `new Date().toISOString()`. -/
def db.add (s : Stored) (item : Rec) (genId nowIso : String) : Except JSErr Rec × Stored :=
  match readOrThrow s with
  | .error e => (.error e, s)
  | .ok items =>
    let newItem : Rec := [("id", JSVal.str genId), ("createdAt", JSVal.str nowIso)] ++ item
    (.ok newItem, .items (items ++ [newItem]))

/-- `db.delete`: parse the stored collection, keep exactly the records
whose stringified id differs from the argument, and write the filtered
list back.  No not-found check is performed. -/
def db.delete (s : Stored) (id : String) : Except JSErr Unit × Stored :=
  match readOrThrow s with
  | .error e => (.error e, s)
  | .ok items => (.ok (), .items (items.filter (fun item => !(idMatches id item))))

/-- The per-record mapping performed inside `db.importBulk`: alias
resolution, date sanitisation, the equipment-name/assignee
disambiguation, enum normalization, and string coercion of the remaining
schema fields, spread over a shallow copy of the source record (the
prepended bindings shadow the source's on lookup).  `genId` stands for
the `generateId()` call and `nowIso` for `new Date().toISOString()`. -/
def mapRecord (item : Rec) (genId nowIso : String) : Rec :=
  let rawSerial := jsOr (getField item "serialNumber")
    (jsOr (getField item "serial_number") (jsOr (getField item "SerialNumber") (JSVal.str "N/A")))
  let serialNumber := jsToString rawSerial
  let dueDate := safeDate (jsOr (getField item "dueDate") (getField item "due_date"))
  let issueDate := safeDate (jsOr (getField item "issueDate") (getField item "issue_date"))
  let empId := jsToString (jsOr (getField item "empId")
    (jsOr (getField item "emp_id") (jsOr (getField item "employee_id") (JSVal.str ""))))
  let nameVal0 := jsOr (getField item "name")
    (jsOr (getField item "equipment_name") (JSVal.str "Unknown Equipment"))
  let assigneeVal0 := jsOr (getField item "assigneeName")
    (jsOr (getField item "assignee_name") (JSVal.str ""))
  let nameVal := if truthy (getField item "equipment_name") then
      getField item "equipment_name" else nameVal0
  let assigneeVal := if truthy (getField item "equipment_name") &&
      truthy (getField item "name") && !truthy assigneeVal0 then
      getField item "name" else assigneeVal0
  [("id", if truthy (getField item "id") then JSVal.str (jsToString (getField item "id"))
      else JSVal.str genId),
   ("createdAt", jsOr (getField item "createdAt") (JSVal.str nowIso)),
   ("serialNumber", JSVal.str serialNumber),
   ("dueDate", JSVal.str dueDate),
   ("issueDate", JSVal.str issueDate),
   ("empId", JSVal.str empId),
   ("name", JSVal.str (jsToString nameVal)),
   ("assigneeName", JSVal.str (jsToString assigneeVal)),
   ("status", JSVal.str (normalizeEnum (getField item "status") "Available")),
   ("type", JSVal.str (normalizeEnum (getField item "type") "Other")),
   ("location", JSVal.str (jsToString (jsOr (getField item "location") (JSVal.str "")))),
   ("remarks", JSVal.str (jsToString (jsOr (getField item "remarks") (JSVal.str "")))),
   ("service", JSVal.str (jsToString (jsOr (getField item "service")
      (jsOr (getField item "services") (JSVal.str ""))))),
   ("department", JSVal.str (jsToString (jsOr (getField item "department") (JSVal.str ""))))]
  ++ item

/-- `db.importBulk`: parse the stored collection, map every incoming
record independently, append the whole mapped batch after the current
contents and write back.  `gen` supplies the `generateId()` value for the
record at each position and `nowIso` the `new Date().toISOString()`
value. -/
def db.importBulk (s : Stored) (newItems : List Rec) (gen : Nat → String)
    (nowIso : String) : Except JSErr Unit × Stored :=
  match readOrThrow s with
  | .error e => (.error e, s)
  | .ok currentItems =>
    let processed := (newItems.enum).map (fun p => mapRecord p.2 (gen p.1) nowIso)
    (.ok (), .items (currentItems ++ processed))

/-- The string members of the `EquipmentStatus` enum used by the stats
computation. -/
def EquipmentStatus.BREAKDOWN : String := "Breakdown"

def EquipmentStatus.MAINTENANCE : String := "Maintenance"

/-- Running counters of the Dashboard `stats` fold. -/
structure StatsAcc where
  expired : Nat
  breakdown : Nat
  maintenance : Nat
  byType : String → Nat

/-- Model of `setDate` day-of-month overflow normalization: excess days
roll into the following months (with year rollover), as in
`thirtyDaysFromNow.setDate(now.getDate() + 30)`. -/
def normDateAux : Nat → Nat → Nat → Nat → Nat → Instant
  | 0, y, m, d, ms => ⟨y, m, d, ms⟩
  | fuel + 1, y, m, d, ms =>
    if d > daysInMonth y m then
      if m ≥ 12 then normDateAux fuel (y + 1) 1 (d - daysInMonth y m) ms
      else normDateAux fuel y (m + 1) (d - daysInMonth y m) ms
    else ⟨y, m, d, ms⟩

/-- The instant thirty days after `now`, computed as the Dashboard does
with `setDate(now.getDate() + 30)`. -/
def addDays30 (now : Instant) : Instant :=
  normDateAux 24 now.year now.month (now.day + 30) now.ms

/-- One iteration of the Dashboard stats `forEach` body over a record. -/
def statsStep (thirty : Instant) (acc : StatsAcc) (item : Rec) : StatsAcc :=
  let ty := if truthy (getField item "type") then jsTrim (jsToString (getField item "type"))
    else "Other"
  let st := if truthy (getField item "status") then
      jsTrim (jsToLower (jsToString (getField item "status"))) else ""
  let displayType := titleCase ty
  let byType := fun k => if k = displayType then acc.byType k + 1 else acc.byType k
  let breakdown := if st = jsToLower EquipmentStatus.BREAKDOWN then acc.breakdown + 1
    else acc.breakdown
  let maintenance := if st = jsToLower EquipmentStatus.MAINTENANCE then acc.maintenance + 1
    else acc.maintenance
  let expired :=
    if truthy (getField item "dueDate") then
      match jsNewDate (getField item "dueDate") with
      | some due => if due.key ≤ thirty.key then acc.expired + 1 else acc.expired
      | none => acc.expired
    else acc.expired
  ⟨expired, breakdown, maintenance, byType⟩

/-- The Dashboard `stats` computation: a fold of `statsStep` over the
record set against the thirty-day horizon from `now` (the `total` field
of the result object is `data.length` and is kept separately by the
claims). -/
def computeStats (data : List Rec) (now : Instant) : StatsAcc :=
  data.foldl (statsStep (addDays30 now)) ⟨0, 0, 0, fun _ => 0⟩

theorem digitChar_isDigit_of_lt (n : Nat) (h : n < 10) : (Nat.digitChar n).isDigit = true := by
  interval_cases n <;> decide

theorem digitChar_mod10_isDigit (n : Nat) : (Nat.digitChar (n % 10)).isDigit = true :=
  digitChar_isDigit_of_lt _ (Nat.mod_lt _ (by decide))

theorem digVal_digitChar_of_lt (n : Nat) (h : n < 10) : digVal (Nat.digitChar n) = n := by
  interval_cases n <;> decide

theorem digVal_digitChar_mod10 (n : Nat) : digVal (Nat.digitChar (n % 10)) = n % 10 :=
  digVal_digitChar_of_lt _ (Nat.mod_lt _ (by decide))

theorem daysInMonth_le_31 (y m : Nat) : daysInMonth y m ≤ 31 := by
  unfold daysInMonth
  split
  · split <;> omega
  · split <;> omega

theorem parseJSDateChars_toISOChars (i : Instant) (h : validInstant i) :
    parseJSDateChars (toISOChars i) = some i := by
  obtain ⟨y, mo, d, ms⟩ := i
  unfold validInstant at h
  obtain ⟨h1, h2, h3, h4, h5, h6⟩ := h
  dsimp only at h1 h2 h3 h4 h5 h6
  have h31 : d ≤ 31 := h4.trans (daysInMonth_le_31 y mo)
  simp only [toISOChars, pad4, pad3, pad2, List.cons_append, List.nil_append]
  simp only [parseJSDateChars]
  simp only [digitChar_mod10_isDigit, parse2, parse3, parse4, digVal_digitChar_mod10,
    beq_self_eq_true, Bool.and_self, Bool.true_and, Bool.and_true, if_true]
  have hcond : ms / 3600000 / 10 % 10 * 10 + ms / 3600000 % 10 < 24 ∧
      ms % 3600000 / 60000 / 10 % 10 * 10 + ms % 3600000 / 60000 % 10 < 60 ∧
      ms % 60000 / 1000 / 10 % 10 * 10 + ms % 60000 / 1000 % 10 < 60 := by omega
  rw [if_pos hcond]
  have hy : y / 1000 % 10 * 1000 + y / 100 % 10 * 100 + y / 10 % 10 * 10 + y % 10 = y := by
    omega
  have hmo : mo / 10 % 10 * 10 + mo % 10 = mo := by omega
  have hd : d / 10 % 10 * 10 + d % 10 = d := by omega
  have hms : (ms / 3600000 / 10 % 10 * 10 + ms / 3600000 % 10) * 3600000 +
      (ms % 3600000 / 60000 / 10 % 10 * 10 + ms % 3600000 / 60000 % 10) * 60000 +
      (ms % 60000 / 1000 / 10 % 10 * 10 + ms % 60000 / 1000 % 10) * 1000 +
      (ms % 1000 / 100 % 10 * 100 + ms % 1000 / 10 % 10 * 10 + ms % 1000 % 10) = ms := by
    omega
  rw [hy, hmo, hd, hms]
  have hv : validInstant ⟨y, mo, d, ms⟩ := ⟨h1, h2, h3, h4, h5, h6⟩
  simp [mkInstant?, hv]


theorem mkInstant?_valid {y mo d ms : Nat} {i : Instant}
    (h : mkInstant? y mo d ms = some i) : validInstant i := by
  simp only [mkInstant?] at h
  split at h
  · cases h
    assumption
  · cases h

theorem parseJSDateChars_valid {l : List Char} {i : Instant}
    (h : parseJSDateChars l = some i) : validInstant i := by
  unfold parseJSDateChars at h
  split at h
  · split at h
    · exact mkInstant?_valid h
    · cases h
  · split at h
    · dsimp only at h
      split at h
      · exact mkInstant?_valid h
      · cases h
    · cases h
  · cases h

theorem instantOfMillis_valid {n : Int} {i : Instant}
    (h : instantOfMillis n = some i) : validInstant i := by
  simp only [instantOfMillis] at h
  split at h
  · cases h
  · split at h
    · exact mkInstant?_valid h
    · cases h

theorem jsNewDate_valid {v : JSVal} {i : Instant}
    (h : jsNewDate v = some i) : validInstant i := by
  cases v with
  | str s => exact parseJSDateChars_valid h
  | num n => exact instantOfMillis_valid h
  | boolean b => exact instantOfMillis_valid h
  | null => exact instantOfMillis_valid h
  | undef => cases h

/-- C3: `safeDate` is a total function of its input (it terminates and
propagates no exception, the try/catch around the ISO conversion being
unreachable for valid dates), and its result is either the empty string
or the ISO rendering of the instant the input denotes, which re-parses
to that same instant. -/
theorem safeDate_total_roundtrip (val : JSVal) :
    safeDate val = "" ∨
      ∃ i, jsNewDate val = some i ∧ safeDate val = toISOString i ∧
        parseJSDateString (safeDate val) = some i := by
  unfold safeDate
  by_cases ht : truthy val
  · rw [if_pos ht]
    cases hj : jsNewDate val with
    | none => left; rfl
    | some i =>
      right
      exact ⟨i, rfl, rfl, parseJSDateChars_toISOChars i (jsNewDate_valid hj)⟩
  · rw [if_neg ht]
    left
    rfl

theorem lookup_append_of_none {k : String} {l1 l2 : Rec}
    (h : l1.lookup k = none) : (l1 ++ l2).lookup k = l2.lookup k := by
  induction l1 with
  | nil => rfl
  | cons a rest ih =>
    obtain ⟨k1, v⟩ := a
    simp only [List.lookup, List.cons_append] at h ⊢
    cases hk : (k == k1) with
    | true => rw [hk] at h; simp at h
    | false => rw [hk] at h; dsimp only at h ⊢; exact ih h

theorem jsFindIndex_of_all_false {p : α → Bool} {l : List α}
    (h : ∀ a ∈ l, p a = false) : jsFindIndex p l = -1 := by
  induction l with
  | nil => rfl
  | cons a rest ih =>
    simp only [jsFindIndex]
    rw [h a (by simp)]
    simp only [Bool.false_eq_true, if_false]
    rw [ih (fun x hx => h x (by simp [hx]))]
    rfl

theorem jsFindIndex_spec (p : α → Bool) (l : List α) :
    jsFindIndex p l = -1 ∨
      (0 ≤ jsFindIndex p l ∧ (jsFindIndex p l).toNat < l.length) := by
  induction l with
  | nil => left; rfl
  | cons a rest ih =>
    simp only [jsFindIndex]
    by_cases hp : p a
    · right
      rw [if_pos hp]
      refine ⟨by omega, ?_⟩
      simp [List.length_cons]
    · rw [if_neg hp]
      cases ih with
      | inl h => left; rw [h]; rfl
      | inr h =>
        right
        have hne : jsFindIndex p rest ≠ -1 := by omega
        rw [if_neg hne]
        simp only [List.length_cons]
        omega

/-- C2 counterexample: deleting an identifier that is not in the store
completes without any error (and rewrites the same collection), instead
of surfacing a not-found condition. -/
theorem C2_counterexample_delete_unknown_silent :
    db.delete (Stored.items [[("id", JSVal.str "1")]]) "2"
        = (Except.ok (), Stored.items [[("id", JSVal.str "1")]]) ∧
      (db.delete (Stored.items [[("id", JSVal.str "1")]]) "2").1
        ≠ Except.error JSErr.notFound :=
  ⟨rfl, fun h => Except.noConfusion h⟩

/-- C2 (amended): on a store whose persisted text reads as the collection
`l`, with an identifier matching no record, `update` surfaces the
`Item not found` error and leaves the persisted state unchanged, while
`delete` completes silently, writing back the unchanged collection. -/
theorem C2_update_notFound_delete_silent (s : Stored) (l : List Rec) (id : String)
    (updates : Rec) (hs : readOrThrow s = .ok l)
    (hid : ∀ r ∈ l, idMatches id r = false) :
    db.update s id updates = (.error .notFound, s) ∧
      db.delete s id = (.ok (), .items l) := by
  constructor
  · unfold db.update
    rw [hs]
    dsimp only
    rw [jsFindIndex_of_all_false hid]
    rfl
  · unfold db.delete
    rw [hs]
    dsimp only
    rw [List.filter_eq_self.mpr (fun a ha => by rw [hid a ha]; rfl)]

/-- C2 witness at a concrete store and identifier. -/
theorem C2_witness :
    db.update (Stored.items [[("id", JSVal.str "1")]]) "9" [("location", JSVal.str "x")]
        = (.error .notFound, Stored.items [[("id", JSVal.str "1")]]) ∧
      db.delete (Stored.items [[("id", JSVal.str "1")]]) "9"
        = (.ok (), .items [[("id", JSVal.str "1")]]) :=
  C2_update_notFound_delete_silent (Stored.items [[("id", JSVal.str "1")]])
    [[("id", JSVal.str "1")]] "9" [("location", JSVal.str "x")] rfl (by decide)

/-- C9 counterexample: on a malformed persisted state, `delete` does not
silently treat the store as empty; it propagates the JSON parse failure
and leaves the corrupt state in place (on an absent state it would have
completed and written the empty collection). -/
theorem C9_counterexample_delete_corrupt_errors :
    db.delete Stored.corrupt "1" = (.error .parseError, Stored.corrupt) ∧
      db.delete Stored.absent "1" = (.ok (), Stored.items []) :=
  ⟨rfl, rfl⟩

/-- C9 (amended): `getAll` silently treats an absent or malformed
persisted state as the empty collection, while the mutating operations
(`update`, `delete`, `add`, `importBulk`) propagate the parse failure on
a malformed state without writing anything. -/
theorem C9_getAll_empty_mutators_propagate (id : String) (updates item : Rec)
    (newItems : List Rec) (gen : Nat → String) (genId nowIso : String) :
    db.getAll Stored.corrupt = [] ∧ db.getAll Stored.absent = [] ∧
      db.update Stored.corrupt id updates = (.error .parseError, Stored.corrupt) ∧
      db.delete Stored.corrupt id = (.error .parseError, Stored.corrupt) ∧
      db.add Stored.corrupt item genId nowIso = (.error .parseError, Stored.corrupt) ∧
      db.importBulk Stored.corrupt newItems gen nowIso
        = (.error .parseError, Stored.corrupt) :=
  ⟨rfl, rfl, rfl, rfl, rfl, rfl⟩

/-- C10: `delete` keeps exactly the records whose stringified id differs
from the argument: every record whose id matches (duplicates included) is
removed, and every other record is retained unchanged, in its original
order (the result is a sublist of the original collection). -/
theorem C10_delete_removes_all_matching (l : List Rec) (id : String) :
    db.delete (Stored.items l) id
        = (.ok (), .items (l.filter (fun r => !(idMatches id r)))) ∧
      (∀ r ∈ l.filter (fun r => !(idMatches id r)), jsToString (getField r "id") ≠ id) ∧
      (l.filter (fun r => !(idMatches id r))).Sublist l ∧
      (∀ r ∈ l, jsToString (getField r "id") ≠ id →
        r ∈ l.filter (fun r => !(idMatches id r))) := by
  refine ⟨rfl, ?_, List.filter_sublist l, ?_⟩
  · intro r hr
    have h := List.of_mem_filter hr
    simpa [idMatches] using h
  · intro r hr hne
    refine List.mem_filter.mpr ⟨hr, ?_⟩
    simpa [idMatches] using hne

/-- C10 witness: deleting id "1" from a store with duplicate id "1"
records removes both and keeps the other record. -/
theorem C10_witness :
    db.delete (Stored.items
        [[("id", JSVal.str "1")], [("id", JSVal.str "2")], [("id", JSVal.str "1")]]) "1"
      = (.ok (), .items [[("id", JSVal.str "2")]]) :=
  (C10_delete_removes_all_matching
    [[("id", JSVal.str "1")], [("id", JSVal.str "2")], [("id", JSVal.str "1")]] "1").1.trans
    (by rfl)

/-- C8 counterexample: a call to `update` whose fields include a
`createdAt` key overwrites the stored record's creation instant. -/
theorem C8_counterexample_update_overwrites_createdAt :
    getField ((db.getAll (db.update (Stored.items
          [[("id", JSVal.str "1"), ("createdAt", JSVal.str "X")]])
          "1" [("createdAt", JSVal.str "tampered")]).2).getD 0 []) "createdAt"
        = JSVal.str "tampered" ∧
      JSVal.str "tampered" ≠ JSVal.str "X" :=
  ⟨rfl, by decide⟩

/-- C8 (amended): `createdAt` is assigned at record creation (`add` sets
it to the current instant, and the bulk-import mapper sets it to the
source's truthy `createdAt` or else the current instant), and any update
whose fields do not include a `createdAt` key preserves every stored
record's `createdAt` verbatim. -/
theorem C8_createdAt_assigned_once (l : List Rec) (id : String) (updates item : Rec)
    (genId nowIso : String) (hupd : updates.lookup "createdAt" = none) :
    (∀ j : Nat,
      ((db.getAll (db.update (Stored.items l) id updates).2).getD j []).lookup "createdAt"
        = (l.getD j []).lookup "createdAt")
    ∧ (∃ newRec : Rec, (db.add (Stored.items l) item genId nowIso).1 = .ok newRec ∧
        newRec.lookup "createdAt" = some (JSVal.str nowIso))
    ∧ (mapRecord item genId nowIso).lookup "createdAt"
        = some (jsOr (getField item "createdAt") (JSVal.str nowIso)) := by
  refine ⟨?_, ⟨_, rfl, rfl⟩, rfl⟩
  intro j
  simp only [db.update, readOrThrow]
  by_cases hidx : jsFindIndex (idMatches id) l = -1
  · rw [if_pos hidx]
    rfl
  · rw [if_neg hidx]

    have hlt : (jsFindIndex (idMatches id) l).toNat < l.length := by
      rcases jsFindIndex_spec (idMatches id) l with h | h
      · exact absurd h hidx
      · exact h.2
    dsimp only [db.getAll]
    rw [List.getD_eq_getElem?_getD, List.getD_eq_getElem?_getD, List.getElem?_set]
    by_cases hj : (jsFindIndex (idMatches id) l).toNat = j
    · rw [if_pos hj, if_pos hlt]
      dsimp only [Option.getD]
      rw [lookup_append_of_none hupd, List.getD_eq_getElem?_getD, hj]
      rfl
    · rw [if_neg hj, List.getD_eq_getElem?_getD]

/-- C8 witness: an update that changes only `status` leaves the stored
record's `createdAt` at its original value. -/
theorem C8_witness :
    ((db.getAll (db.update (Stored.items
          [[("id", JSVal.str "1"), ("createdAt", JSVal.str "X")]])
          "1" [("status", JSVal.str "Assigned")]).2).getD 0 []).lookup "createdAt"
      = some (JSVal.str "X") :=
  ((C8_createdAt_assigned_once [[("id", JSVal.str "1"), ("createdAt", JSVal.str "X")]]
    "1" [("status", JSVal.str "Assigned")] [] "g" "N" rfl).1 0).trans rfl

/-- Rendering of claim C4's words, for comparison with the code: the
result's first character is upper-case and its remaining characters are
lower-case. -/
def titleCasedB (s : String) : Bool :=
  match s.data with
  | [] => false
  | c :: rest => c.isUpper && rest.all Char.isLower

/-- Rendering of claim C4's statement at one input, for refutation: the
fallback is returned when the value is empty or absent, and otherwise the
result is title-cased. -/
def c4ClaimAt (v : JSVal) (f : String) : Prop :=
  ((v = JSVal.str "" ∨ v = JSVal.undef ∨ v = JSVal.null) → normalizeEnum v f = f) ∧
    (¬(v = JSVal.str "" ∨ v = JSVal.undef ∨ v = JSVal.null) →
      titleCasedB (normalizeEnum v f) = true)

instance (v : JSVal) (f : String) : Decidable (c4ClaimAt v f) := by
  unfold c4ClaimAt
  infer_instance

/-- C4 counterexample: a whitespace-only value is neither empty nor
absent, yet `normalizeEnum` returns the fallback, which need not be
title-cased. -/
theorem C4_counterexample_whitespace : ¬ c4ClaimAt (JSVal.str " ") "abc" := by decide

/-- C4 (amended): `normalizeEnum` returns the fallback exactly when the
value's string form (with falsy values mapping to the empty string)
trims to empty — in particular when the value is empty or absent — and
otherwise returns the trimmed string with its first character
upper-cased and the remaining characters lower-cased. -/
theorem C4_normalizeEnum_spec (v : JSVal) (f : String) :
    (jsTrim (jsToString (jsOr v (JSVal.str ""))) = "" → normalizeEnum v f = f) ∧
    (∀ c rest, (jsTrim (jsToString (jsOr v (JSVal.str "")))).data = c :: rest →
      normalizeEnum v f = String.mk (Char.toUpper c :: rest.map Char.toLower)) ∧
    ((v = JSVal.str "" ∨ v = JSVal.undef ∨ v = JSVal.null) → normalizeEnum v f = f) ∧
    normalizeEnum (JSVal.str "laptop") "Other" = "Laptop" ∧
    normalizeEnum (JSVal.str "BREAKDOWN") "Available" = "Breakdown" ∧
    normalizeEnum JSVal.undef "Available" = "Available" := by
  refine ⟨?_, ?_, ?_, rfl, rfl, rfl⟩
  · intro h
    simp only [normalizeEnum]
    rw [if_pos h]
  · intro c rest hd
    have hne : jsTrim (jsToString (jsOr v (JSVal.str ""))) ≠ "" := by
      intro he
      rw [he] at hd
      exact List.noConfusion hd
    simp only [normalizeEnum]
    rw [if_neg hne]
    unfold titleCase
    rw [hd]
  · rintro (rfl | rfl | rfl) <;> rfl

/-- C4 witness: the amended claim applied at a non-empty mixed-case
input with surrounding whitespace, and at the spec's own examples. -/
theorem C4_witness :
    normalizeEnum (JSVal.str " zeBRa ") "fallback" = "Zebra" ∧
      normalizeEnum (JSVal.str "laptop") "Other" = "Laptop" ∧
      normalizeEnum JSVal.undef "Available" = "Available" :=
  ⟨((C4_normalizeEnum_spec (JSVal.str " zeBRa ") "fallback").2.1 'z' "eBRa".data rfl).trans
      rfl,
    (C4_normalizeEnum_spec (JSVal.str "laptop") "Other").2.2.2.1,
    (C4_normalizeEnum_spec JSVal.undef "Available").2.2.1 (Or.inr (Or.inl rfl))⟩

/-- C5 counterexample: a present but falsy `id` field (the number 0) is
not coerced to its string form "0"; a fresh identifier is generated for
it instead. -/
theorem C5_counterexample_falsy_id :
    ([("id", JSVal.num 0)] : Rec).lookup "id" = some (JSVal.num 0) ∧
      getField (mapRecord [("id", JSVal.num 0)] "fresh1" "N") "id" = JSVal.str "fresh1" ∧
      JSVal.str "fresh1" ≠ JSVal.str "0" :=
  ⟨rfl, rfl, by decide⟩

/-- C5 (amended): the mapped `id` is the string form of the source `id`
when that field is truthy, and a newly generated identifier otherwise
(in particular when the field is absent); in either case it is a string,
even when the import source supplied a numeric value. -/
theorem C5_mapped_id_string (item : Rec) (genId nowIso : String) :
    getField (mapRecord item genId nowIso) "id"
        = (if truthy (getField item "id") then JSVal.str (jsToString (getField item "id"))
           else JSVal.str genId) ∧
      (∃ s : String, getField (mapRecord item genId nowIso) "id" = JSVal.str s) ∧
      getField (mapRecord [("id", JSVal.num 42)] genId nowIso) "id" = JSVal.str "42" := by
  refine ⟨rfl, ?_, rfl⟩
  by_cases h : truthy (getField item "id") = true
  · refine ⟨jsToString (getField item "id"), ?_⟩
    show (if truthy (getField item "id") = true then JSVal.str (jsToString (getField item "id"))
      else JSVal.str genId) = _
    rw [if_pos h]
  · refine ⟨genId, ?_⟩
    show (if truthy (getField item "id") = true then JSVal.str (jsToString (getField item "id"))
      else JSVal.str genId) = _
    rw [if_neg h]

/-- C5 witness: the claim applied at a numeric and at an id-less record. -/
theorem C5_witness :
    getField (mapRecord [("id", JSVal.num 42)] "g" "N") "id" = JSVal.str "42" ∧
      getField (mapRecord [] "g" "N") "id" = JSVal.str "g" :=
  ⟨(C5_mapped_id_string [("id", JSVal.num 42)] "g" "N").2.2,
    ((C5_mapped_id_string [] "g" "N").1).trans rfl⟩

/-- The Record Mapper example input of the spec: an external record with
a numeric id, a snake-case date, and both `equipment_name` and `name`. -/
def c1Example : Rec :=
  [("id", JSVal.num 42), ("due_date", JSVal.str "2024-01-01"),
   ("equipment_name", JSVal.str "Drill"), ("name", JSVal.str "Alice")]

/-- C1 counterexample: a record that contains the `equipment_name` key
with a falsy (empty-string) value does not get that value as the mapped
`name`; the mapper tests truthiness, not key presence, and falls back to
the default name. -/
theorem C1_counterexample_falsy_equipment_name :
    ([("equipment_name", JSVal.str "")] : Rec).lookup "equipment_name"
        = some (JSVal.str "") ∧
      getField (mapRecord [("equipment_name", JSVal.str "")] "g" "N") "name"
        = JSVal.str "Unknown Equipment" ∧
      JSVal.str "Unknown Equipment" ≠ JSVal.str "" :=
  ⟨rfl, rfl, by decide⟩

/-- C1 (amended): when the source record has a truthy `equipment_name`,
its string form becomes the mapped `name`, and if the source also has a
truthy `name` while the `assigneeName`/`assignee_name` alias chain is
falsy, the source `name`'s string form becomes the mapped
`assigneeName`; on the spec's example record the mapped output has id
"42" (a string), a `dueDate` that is the ISO rendering of the instant
2024-01-01T00:00:00Z, name "Drill" and assignee name "Alice". -/
theorem C1_equipment_name_disambiguation (item : Rec) (genId nowIso : String)
    (h : truthy (getField item "equipment_name") = true) :
    getField (mapRecord item genId nowIso) "name"
        = JSVal.str (jsToString (getField item "equipment_name")) ∧
      (truthy (getField item "name") = true →
        truthy (jsOr (getField item "assigneeName")
          (jsOr (getField item "assignee_name") (JSVal.str ""))) = false →
        getField (mapRecord item genId nowIso) "assigneeName"
          = JSVal.str (jsToString (getField item "name"))) ∧
      (getField (mapRecord c1Example genId nowIso) "id" = JSVal.str "42" ∧
        getField (mapRecord c1Example genId nowIso) "dueDate"
          = JSVal.str "2024-01-01T00:00:00.000Z" ∧
        parseJSDateString "2024-01-01T00:00:00.000Z" = some ⟨2024, 1, 1, 0⟩ ∧
        getField (mapRecord c1Example genId nowIso) "name" = JSVal.str "Drill" ∧
        getField (mapRecord c1Example genId nowIso) "assigneeName"
          = JSVal.str "Alice") := by
  refine ⟨?_, ?_, rfl, rfl, rfl, rfl, rfl⟩
  · have e : getField (mapRecord item genId nowIso) "name"
        = JSVal.str (jsToString (if truthy (getField item "equipment_name") = true
            then getField item "equipment_name"
            else jsOr (getField item "name")
              (jsOr (getField item "equipment_name") (JSVal.str "Unknown Equipment")))) := rfl
    rw [e, if_pos h]
  · intro hn ha
    have e : getField (mapRecord item genId nowIso) "assigneeName"
        = JSVal.str (jsToString (if (truthy (getField item "equipment_name") &&
              truthy (getField item "name") &&
              !truthy (jsOr (getField item "assigneeName")
                (jsOr (getField item "assignee_name") (JSVal.str "")))) = true
            then getField item "name"
            else jsOr (getField item "assigneeName")
              (jsOr (getField item "assignee_name") (JSVal.str "")))) := rfl
    rw [e, if_pos (by rw [h, hn, ha]; rfl)]

/-- C1 witness: the disambiguation applied to the spec's example
record. -/
theorem C1_witness :
    getField (mapRecord c1Example "g" "N") "name" = JSVal.str "Drill" ∧
      getField (mapRecord c1Example "g" "N") "assigneeName" = JSVal.str "Alice" :=
  ⟨((C1_equipment_name_disambiguation c1Example "g" "N" rfl).1).trans rfl,
    ((C1_equipment_name_disambiguation c1Example "g" "N" rfl).2.1 rfl rfl).trans rfl⟩

/-- The duplicate-id batch of the spec's bulk-import example. -/
def dupBatch : List Rec := [[("id", JSVal.num 1)], [("id", JSVal.num 1)]]

/-- The store after importing `dupBatch` once into an empty store. -/
def importedOnce : Stored :=
  (db.importBulk (Stored.items []) dupBatch (fun i => toString i) "N").2

/-- The store after importing `dupBatch` a second time. -/
def importedTwice : Stored :=
  (db.importBulk importedOnce dupBatch (fun i => toString i) "N").2

/-- C6 counterexample: importing the two-element duplicate batch twice
into an initially empty store yields four stored records, not two. -/
theorem C6_counterexample_twice_gives_four :
    (db.getAll importedTwice).length = 4 ∧ (db.getAll importedTwice).length ≠ 2 :=
  ⟨rfl, by decide⟩

/-- C6 (amended): a bulk import appends the mapped batch verbatim to the
store's existing contents, with no de-duplication; importing the
duplicate batch once into an empty store yields 2 records, both with id
"1", and importing it twice yields 4 records, all with id "1". -/
theorem C6_import_appends_duplicates :
    (∀ (l newItems : List Rec) (gen : Nat → String) (nowIso : String),
      db.importBulk (Stored.items l) newItems gen nowIso
        = (.ok (), .items
            (l ++ (newItems.enum).map (fun p => mapRecord p.2 (gen p.1) nowIso)))) ∧
      (db.getAll importedOnce).length = 2 ∧
      (db.getAll importedOnce).all (fun r => getField r "id" == JSVal.str "1") = true ∧
      (db.getAll importedTwice).length = 4 ∧
      (db.getAll importedTwice).all (fun r => getField r "id" == JSVal.str "1") = true :=
  ⟨fun _ _ _ _ => rfl, rfl, by decide, rfl, by decide⟩

/-- The per-record near-due test performed by the Dashboard's expiration
branch, extracted from `statsStep`: a truthy `dueDate` that parses to a
valid date at or before the horizon. -/
def codeNearDue (thirty : Instant) (item : Rec) : Bool :=
  if truthy (getField item "dueDate") then
    match jsNewDate (getField item "dueDate") with
    | some due => decide (due.key ≤ thirty.key)
    | none => false
  else false

theorem statsStep_expired (thirty : Instant) (acc : StatsAcc) (item : Rec) :
    (statsStep thirty acc item).expired
      = acc.expired + (if codeNearDue thirty item = true then 1 else 0) := by
  unfold statsStep
  dsimp only
  unfold codeNearDue
  by_cases ht : truthy (getField item "dueDate") = true
  · rw [if_pos ht, if_pos ht]
    cases hj : jsNewDate (getField item "dueDate") with
    | none => simp
    | some due =>
      dsimp only
      by_cases hle : due.key ≤ thirty.key
      · simp [hle]
      · simp [hle]
  · rw [if_neg ht, if_neg ht]
    simp

theorem foldl_statsStep_expired (thirty : Instant) (data : List Rec) :
    ∀ acc : StatsAcc,
      (data.foldl (statsStep thirty) acc).expired
        = acc.expired + data.countP (codeNearDue thirty) := by
  induction data with
  | nil =>
    intro acc
    simp [List.countP_nil]
  | cons a rest ih =>
    intro acc
    rw [List.foldl_cons, ih, List.countP_cons, statsStep_expired]
    by_cases h : codeNearDue thirty a = true
    · rw [if_pos h]
      omega
    · rw [if_neg h]
      omega

/-- Claim C7's per-record predicate, in the spec's words: the record's
`dueDate` parses to a valid instant at or before thirty days from now
(the `Instant.key` ordering agrees with chronological order on valid
instants). -/
def specNearDue (thirty : Instant) (item : Rec) : Prop :=
  ∃ due, jsNewDate (getField item "dueDate") = some due ∧ due.key ≤ thirty.key

instance (thirty : Instant) (item : Rec) : Decidable (specNearDue thirty item) :=
  match h : jsNewDate (getField item "dueDate") with
  | some due =>
    if hle : due.key ≤ thirty.key then isTrue ⟨due, h, hle⟩
    else
      isFalse (by
        rintro ⟨d, hd, hdle⟩
        rw [h] at hd
        cases hd
        exact hle hdle)
  | none =>
    isFalse (by
      rintro ⟨d, hd, _⟩
      rw [h] at hd
      cases hd)

theorem codeNearDue_eq_spec (thirty : Instant) (item : Rec)
    (h : getField item "dueDate" = JSVal.undef ∨
      ∃ s, getField item "dueDate" = JSVal.str s) :
    codeNearDue thirty item = decide (specNearDue thirty item) := by
  have hfalsy : truthy (getField item "dueDate") = false →
      jsNewDate (getField item "dueDate") = none →
      codeNearDue thirty item = decide (specNearDue thirty item) := by
    intro ht hj
    unfold codeNearDue
    rw [ht]
    simp only [Bool.false_eq_true, if_false]
    symm
    simp only [decide_eq_false_iff_not]
    rintro ⟨d, hd, _⟩
    rw [hj] at hd
    cases hd
  rcases h with h | ⟨s, h⟩
  · exact hfalsy (by rw [h]; rfl) (by rw [h]; rfl)
  · by_cases hs : s = ""
    · subst hs
      exact hfalsy (by rw [h]; rfl) (by rw [h]; rfl)
    · have ht : truthy (getField item "dueDate") = true := by
        rw [h]
        simp [truthy, hs]
      unfold codeNearDue
      rw [ht]
      simp only [if_true]
      cases hj : jsNewDate (getField item "dueDate") with
      | none =>
        symm
        simp only [decide_eq_false_iff_not]
        rintro ⟨d, hd, _⟩
        rw [hj] at hd
        cases hd
      | some due =>
        by_cases hle : due.key ≤ thirty.key
        · simp [specNearDue, hj, hle]
        · simp [specNearDue, hj, hle]

/-- C7: for every record set whose `dueDate` fields are strings or
absent, as the Equipment schema prescribes, the Dashboard's `expired`
count equals the number of records whose `dueDate` parses to a valid
instant at or before thirty days from `now`; the window is unbounded on
the past side, and "now + 30 days" is the `setDate` calendar addition
the code performs. -/
theorem C7_expired_counts_near_due (data : List Rec) (now : Instant)
    (h : ∀ r ∈ data, getField r "dueDate" = JSVal.undef ∨
      ∃ s, getField r "dueDate" = JSVal.str s) :
    (computeStats data now).expired
      = data.countP (fun r => decide (specNearDue (addDays30 now) r)) := by
  unfold computeStats
  rw [foldl_statsStep_expired]
  dsimp only
  rw [Nat.zero_add]
  exact List.countP_congr (fun r hr => by rw [codeNearDue_eq_spec _ _ (h r hr)])

/-- The three-record data set of the spec's boundary example: due dates
31 days ahead of 2024-01-01, exactly 30 days ahead, and far in the
past. -/
def c7Data : List Rec :=
  [[("dueDate", JSVal.str "2024-02-01")],
   [("dueDate", JSVal.str "2024-01-31")],
   [("dueDate", JSVal.str "2001-01-01")]]

/-- C7 witness: thirty days from 2024-01-01 is 2024-01-31; the record 31
days out is excluded while the 30-day and past records are counted,
giving an `expired` count of 2. -/
theorem C7_witness :
    (computeStats c7Data ⟨2024, 1, 1, 0⟩).expired = 2 ∧
      addDays30 ⟨2024, 1, 1, 0⟩ = ⟨2024, 1, 31, 0⟩ ∧
      decide (specNearDue (addDays30 ⟨2024, 1, 1, 0⟩) (c7Data.getD 0 [])) = false ∧
      decide (specNearDue (addDays30 ⟨2024, 1, 1, 0⟩) (c7Data.getD 1 [])) = true ∧
      decide (specNearDue (addDays30 ⟨2024, 1, 1, 0⟩) (c7Data.getD 2 [])) = true := by
  refine ⟨?_, rfl, by decide, by decide, by decide⟩
  rw [C7_expired_counts_near_due c7Data ⟨2024, 1, 1, 0⟩ ?_]
  · decide
  · intro r hr
    simp only [c7Data, List.mem_cons, List.not_mem_nil, or_false] at hr
    rcases hr with rfl | rfl | rfl
    · exact Or.inr ⟨_, rfl⟩
    · exact Or.inr ⟨_, rfl⟩
    · exact Or.inr ⟨_, rfl⟩

end DTracker
